import Mathlib

/-!
A shallow embedding of `generate_photos.py` (photo-manifest generator):
directory scan, HEIC conversion, EXIF date/GPS extraction, configuration
merge, stable date sort and serialization, together with theorems about
the embedded definitions.

Conventions of the embedding:
* Python exceptions are modelled with `Except` / `Option`; a `try/except`
  block that swallows the error becomes a total function returning the
  state the handler would observe.
* Python floats are modelled as rationals (`ℚ`); `round(x, 6)` becomes
  `round6` below (no tie-sensitive value appears in any statement).
* Python dicts with insertion order are association lists
  (`List (String × List String)` for `collections`).
-/

namespace GeneratePhotos

/-- One decimal digit of a `Char`, `none` when the character is not a digit
(models the digit classes of `strptime`). -/
def digit? (c : Char) : Option Nat :=
  if c.isDigit then some (c.toNat - 48) else none

/-- Two-digit number from two characters. -/
def num2 (a b : Char) : Option Nat := do
  let x ← digit? a
  let y ← digit? b
  pure (10 * x + y)

/-- Four-digit number from four characters. -/
def num4 (a b c d : Char) : Option Nat := do
  let x ← num2 a b
  let y ← num2 c d
  pure (100 * x + y)

/-- Gregorian leap-year test (as validated by `datetime`). -/
def isLeap (y : Nat) : Bool :=
  decide ((y % 4 = 0 ∧ y % 100 ≠ 0) ∨ y % 400 = 0)

/-- Number of days of month `mo` in year `y`. -/
def daysInMonth (y mo : Nat) : Nat :=
  if mo = 2 then (if isLeap y then 29 else 28)
  else if mo = 4 ∨ mo = 6 ∨ mo = 9 ∨ mo = 11 then 30
  else 31

/-- `datetime.strptime(s, '%Y:%m:%d %H:%M:%S')` followed by `.isoformat()`:
parses the canonical zero-padded `YYYY:MM:DD HH:MM:SS` form, validating the
calendar fields as `datetime` does, and renders `YYYY-MM-DDTHH:MM:SS`.
Returns `none` where the Python call raises `ValueError` (which the code
catches). -/
def parseExifDate (s : String) : Option String :=
  match s.data with
  | [y1, y2, y3, y4, c1, a1, a2, c2, b1, b2, sp, h1, h2, c3, n1, n2, c4, e1, e2] =>
    if c1 = ':' ∧ c2 = ':' ∧ sp = ' ' ∧ c3 = ':' ∧ c4 = ':' then do
      let y ← num4 y1 y2 y3 y4
      let mo ← num2 a1 a2
      let d ← num2 b1 b2
      let h ← num2 h1 h2
      let mi ← num2 n1 n2
      let se ← num2 e1 e2
      if 1 ≤ y ∧ 1 ≤ mo ∧ mo ≤ 12 ∧ 1 ≤ d ∧ d ≤ daysInMonth y mo ∧
          h ≤ 23 ∧ mi ≤ 59 ∧ se ≤ 59 then
        some (String.mk [y1, y2, y3, y4, '-', a1, a2, '-', b1, b2, 'T',
                         h1, h2, ':', n1, n2, ':', e1, e2])
      else none
    else none
  | _ => none

/-- The raw GPS sub-dictionary after `GPSTAGS` renaming (lines 93-98):
each coordinate is the raw tag value, a tuple of rationals of any length
(`to_degrees` unpacks exactly three). -/
structure GpsInfoRaw where
  gpsLatitude : Option (List ℚ)
  gpsLongitude : Option (List ℚ)
  gpsLatitudeRef : Option String
  gpsLongitudeRef : Option String
deriving DecidableEq

/-- The EXIF dictionary after `TAGS` renaming (lines 78-81), restricted to
the tags the program reads. -/
structure ExifData where
  dateTimeOriginal : Option String
  dateTimeDigitized : Option String
  dateTime : Option String
  gpsInfo : Option GpsInfoRaw
deriving DecidableEq

/-- What `Image.open` + `_getexif` yield for a file: the open/metadata read
raises, returns no EXIF, or returns a tag dictionary. -/
inductive ImgMeta
  | openError
  | noExif
  | withExif (e : ExifData)
deriving DecidableEq

/-- Decoded GPS coordinate (`result["geo"]`). -/
structure Geo where
  lat : ℚ
  lon : ℚ
deriving DecidableEq

/-- Return value of `extract_exif`. -/
structure ExifResult where
  date : Option String
  geo : Option Geo
deriving DecidableEq

/-- The date loop of `extract_exif` (lines 84-91): the three tags are tried
in order; at the first tag that is PRESENT the value is parsed (`except:
pass`) and the loop `break`s, whether or not the parse succeeded. -/
def extractDate (e : ExifData) : Option String :=
  match e.dateTimeOriginal with
  | some v => parseExifDate v
  | none =>
    match e.dateTimeDigitized with
    | some v => parseExifDate v
    | none =>
      match e.dateTime with
      | some v => parseExifDate v
      | none => none

/-- `to_degrees` (lines 100-102): unpacks a three-element tuple
`d, m, s = value`; any other length raises (modelled as `none`). -/
def to_degrees (value : List ℚ) : Option ℚ :=
  match value with
  | [d, m, s] => some (d + m / 60 + s / 3600)
  | _ => none

/-- `round(x, 6)` on the rational model: round to the nearest multiple of
`10⁻⁶` (no statement below evaluates it at a half-way tie, where Python's
float rounding could differ). -/
def round6 (q : ℚ) : ℚ :=
  ((round (q * 1000000) : ℤ) : ℚ) / 1000000

/-- The GPS block of `extract_exif` (lines 93-111): requires both
coordinates, converts each with `to_degrees`, negates for the `S`/`W`
reference codes (`dict.get` defaults `N`/`E`), rounds each axis. `none`
covers both the code's no-GPS paths and the exception path (a malformed
tuple raising in `to_degrees`, caught by the handler at lines 114-115). -/
def extractGeo (e : ExifData) : Option Geo :=
  match e.gpsInfo with
  | none => none
  | some g =>
    match g.gpsLatitude, g.gpsLongitude with
    | some latRaw, some lonRaw =>
      match to_degrees latRaw, to_degrees lonRaw with
      | some lat0, some lon0 =>
        let lat := if g.gpsLatitudeRef.getD "N" = "S" then -lat0 else lat0
        let lon := if g.gpsLongitudeRef.getD "E" = "W" then -lon0 else lon0
        some ⟨round6 lat, round6 lon⟩
      | _, _ => none
    | _, _ => none

/-- `extract_exif` (lines 68-117): builds `result` inside a `try` block
whose handler returns the partially-built `result`. The date loop cannot
raise (its parse failure is swallowed inside the loop), so `result` always
carries `extractDate`; an exception raised in the GPS block (malformed
coordinate tuple in `to_degrees`) keeps that date and leaves
`geo = None` — which is exactly `extractGeo`'s `none`. -/
def extract_exif (meta : ImgMeta) : ExifResult :=
  match meta with
  | .openError => ⟨none, none⟩
  | .noExif => ⟨none, none⟩
  | .withExif e => ⟨extractDate e, extractGeo e⟩

/-- Whether the body of `extract_exif` raises (and the handler at lines
114-115 runs): the open/metadata read fails, or both coordinates are
present and unpacking one of them fails. -/
def decodeRaises (meta : ImgMeta) : Bool :=
  match meta with
  | .openError => true
  | .noExif => false
  | .withExif e =>
    match e.gpsInfo with
    | none => false
    | some g =>
      match g.gpsLatitude, g.gpsLongitude with
      | some latRaw, some lonRaw =>
        (to_degrees latRaw).isNone || (to_degrees lonRaw).isNone
      | _, _ => false

/-- The fallback at lines 185-187: filesystem modification time replaces a
missing EXIF date. -/
def fallbackDate (exifDate : Option String) (mtimeIso : String) : String :=
  match exifDate with
  | some d => d
  | none => mtimeIso

/-- `photos_config.json` as a value: the `_instructions` free-text field,
`favorites` (a list, possibly with duplicates), `collections` (an ordered
mapping, Python dict insertion order), and `_all_photos`. -/
structure Config where
  instructions : String
  favorites : List String
  collections : List (String × List String)
  all_photos : List String
deriving DecidableEq

/-- Lexicographic code-point comparison of character lists: Python's
string `<=`. -/
def charListLe : List Char → List Char → Bool
  | [], _ => true
  | _ :: _, [] => false
  | a :: as, b :: bs =>
    if a < b then true
    else if b < a then false
    else charListLe as bs

/-- Python string comparison `a <= b` (lexicographic on code points). -/
def strLe (a b : String) : Prop := charListLe a.data b.data = true

instance : DecidableRel strLe := fun a b =>
  inferInstanceAs (Decidable (charListLe a.data b.data = true))

/-- Python `sorted` on a list of strings (stable; here applied to
duplicate-free lists). -/
def sortStrings (l : List String) : List String :=
  List.insertionSort strLe l

/-- The `default_config` literal of `load_config` (lines 122-132). -/
def default_config (all_filenames : List String) : Config :=
  { instructions := "Assign photos to categories by adding filenames to each array below. After editing, run: source .venv/bin/activate && python3 generate_photos.py",
    favorites := [],
    collections := [("flowers", []), ("food", []), ("friends", [])],
    all_photos := sortStrings all_filenames }

/-- `load_config` (lines 120-153). The missing-file case is the `none`
input. The returned `Bool` records whether the configuration file was
(re)written. `new_photos = current − existing` is computed on sets; only
its emptiness is used. `sorted(current)` is the sorted deduplicated
current filename list — NOT the union with the previously-known list. -/
def load_config (existingConfig : Option Config) (all_filenames : List String) :
    Config × Bool :=
  match existingConfig with
  | none => (default_config all_filenames, true)
  | some config =>
    let new_photos := all_filenames.filter (fun f => decide (f ∉ config.all_photos))
    if new_photos ≠ [] then
      ({ config with all_photos := sortStrings all_filenames.dedup }, true)
    else
      (config, false)

/-- The category loop of `main` (lines 189-195): start from the favorites
test (`favorites_set` membership coincides with membership in the
`favorites` list), then append each collection name whose file list
contains the filename, in mapping iteration order. -/
def catsFor (favorites : List String) (collections : List (String × List String))
    (f : String) : List String :=
  let cats := if f ∈ favorites then ["favorites"] else []
  collections.foldl (fun cats c => if f ∈ c.2 then cats ++ [c.1] else cats) cats

/-- A scanned file: its name, what its metadata decodes to, and its
filesystem modification time already rendered by
`datetime.fromtimestamp(mtime).isoformat()`. -/
structure FileEntry where
  name : String
  meta : ImgMeta
  mtimeIso : String
deriving DecidableEq

/-- One entry of the output manifest (lines 197-204): `date` is always
set; `geo` and `categories` are emitted only when present / non-empty. -/
structure Photo where
  file : String
  date : String
  geo : Option Geo
  categories : Option (List String)
deriving DecidableEq

/-- The record assembly of `main` (lines 180-206) for a single file. -/
def buildRecord (cfg : Config) (e : FileEntry) : Photo :=
  let exif := extract_exif e.meta
  let date := fallbackDate exif.date e.mtimeIso
  let cats := catsFor cfg.favorites cfg.collections e.name
  { file := e.name,
    date := date,
    geo := exif.geo,
    categories := if cats = [] then none else some cats }

/-- `os.path.splitext(name)[1]`: the suffix from the last dot, empty when
there is no dot or only leading dots precede it. -/
def extOf (name : String) : String :=
  let cs := name.data
  match cs.reverse.findIdx? (fun c => c = '.') with
  | none => ""
  | some i =>
    let pos := cs.length - 1 - i
    if (cs.take pos).all (fun c => c = '.') then ""
    else String.mk (cs.drop pos)

/-- ASCII lowering of one character (`str.lower` restricted to the ASCII
letters that can occur in an extension). -/
def lowerChar (c : Char) : Char :=
  if 'A' ≤ c ∧ c ≤ 'Z' then Char.ofNat (c.toNat + 32) else c

/-- ASCII `str.lower`. -/
def lowerStr (s : String) : String :=
  String.mk (s.data.map lowerChar)

/-- Extension test against `SUPPORTED_EXTENSIONS` (line 45, applied at
line 170 with `.lower()`). -/
def supportedExt (name : String) : Bool :=
  decide (lowerStr (extOf name) ∈ [".jpeg", ".jpg", ".png", ".gif", ".webp"])

/-- Name order for the directory scan `sorted(...)` (lines 168-171). -/
def nameLe (a b : FileEntry) : Prop := strLe a.name b.name

instance : DecidableRel nameLe := fun a b =>
  inferInstanceAs (Decidable (strLe a.name b.name))

/-- Step 2 of `main` (lines 167-171): keep the supported files, sorted by
filename (filenames in one directory are distinct, so sorting entries by
name models sorting the name list). -/
def scanFiles (entries : List FileEntry) : List FileEntry :=
  List.insertionSort nameLe (entries.filter (fun e => supportedExt e.name))

/-- Date order used by `photos.sort(key=lambda p: p["date"])` (line 209):
plain string comparison of the `date` fields. -/
def photoLe (a b : Photo) : Prop := strLe a.date b.date

instance : DecidableRel photoLe := fun a b =>
  inferInstanceAs (Decidable (strLe a.date b.date))

/-- Steps 4-5 of `main` for a given effective configuration: build one
record per scanned file, then sort by date. Python's `list.sort` is
specified stable; `List.insertionSort` is its stable embedding. -/
def buildManifest (cfg : Config) (entries : List FileEntry) : List Photo :=
  List.insertionSort photoLe ((scanFiles entries).map (buildRecord cfg))

/-- JSON string escaping as `json.dumps` performs it for the characters
that can occur here (the `\uXXXX` escaping of other control and non-ASCII
characters is orthogonal to every claim). -/
def jsonEscapeChar (c : Char) : String :=
  if c = '"' then "\\\""
  else if c = '\\' then "\\\\"
  else if c = '\n' then "\\n"
  else if c = '\t' then "\\t"
  else if c = '\r' then "\\r"
  else String.mk [c]

/-- A JSON string literal. -/
def jsonStr (s : String) : String :=
  "\"" ++ String.join (s.data.map jsonEscapeChar) ++ "\""

/-- Drop trailing zeros of a fractional-digit string. -/
def stripTrailingZeros (s : String) : String :=
  String.mk (s.data.reverse.dropWhile (fun c => c = '0')).reverse

/-- Zero-pad a numeral to six digits. -/
def pad6 (n : Nat) : String :=
  let s := toString n
  String.mk (List.replicate (6 - s.length) '0') ++ s

/-- `repr` of a rounded coordinate (a multiple of `10⁻⁶`) as `json.dumps`
prints it: minus sign, integer part, and the fractional digits without
trailing zeros (`.0` when the value is integral). -/
def renderCoord (q : ℚ) : String :=
  let micros : ℤ := round (q * 1000000)
  let sign := if micros < 0 then "-" else ""
  let a := micros.natAbs
  let frac := stripTrailingZeros (pad6 (a % 1000000))
  sign ++ toString (a / 1000000) ++ "." ++ (if frac = "" then "0" else frac)

/-- One photo object, rendered at list depth 1 of `json.dumps(photos,
indent=2)`: keys in dict insertion order (`file`, `date`, optional `geo`,
optional `categories`). -/
def photoJson (p : Photo) : String :=
  "\x7b\n    \"file\": " ++ jsonStr p.file ++
  ",\n    \"date\": " ++ jsonStr p.date ++
  (match p.geo with
   | none => ""
   | some g =>
     ",\n    \"geo\": \x7b\n      \"lat\": " ++ renderCoord g.lat ++
     ",\n      \"lon\": " ++ renderCoord g.lon ++ "\n    \x7d") ++
  (match p.categories with
   | none => ""
   | some cs =>
     ",\n    \"categories\": [\n" ++
     String.intercalate ",\n" (cs.map (fun c => "      " ++ jsonStr c)) ++
     "\n    ]") ++
  "\n  \x7d"

/-- `json.dumps(photos, indent=2)`. -/
def photosJson (ps : List Photo) : String :=
  match ps with
  | [] => "[]"
  | _ => "[\n  " ++ String.intercalate ",\n  " (ps.map photoJson) ++ "\n]"

/-- The two output artifacts (lines 211-219): `photos_data.json` holds the
dump itself; `photos_data.js` wraps the same dump in a header comment and
a constant assignment. -/
def writeOutputs (photos : List Photo) : String × String :=
  let js_data := photosJson photos
  (js_data,
   "// Auto-generated by generate_photos.py — do not edit manually\n" ++
   "const PHOTOS_RAW_DATA = " ++ js_data ++ ";\n")

/-- Steps 2-5 of `main`: scan, resolve the configuration, build and sort
the records, serialize both artifacts. -/
def runPipeline (entries : List FileEntry) (cfgOpt : Option Config) : String × String :=
  let files := scanFiles entries
  let cfg := (load_config cfgOpt (files.map FileEntry.name)).1
  writeOutputs (List.insertionSort photoLe (files.map (buildRecord cfg)))

/-- A file with a legacy extension found by step 1; `corrupt` marks a file
for which `Image.open` raises. -/
structure HeicFile where
  name : String
  corrupt : Bool
deriving DecidableEq

/-- `convert_heic_to_jpeg` (lines 49-65): without HEIF support the file is
skipped with a warning (`none`); otherwise a corrupt file raises, and a
readable one yields the sibling `.jpeg` path. -/
def convert_heic_to_jpeg (heifSupport : Bool) (f : HeicFile) :
    Except String (Option String) :=
  if heifSupport = false then Except.ok none
  else if f.corrupt then Except.error ("cannot identify image file " ++ f.name)
  else Except.ok (some ((f.name.take (f.name.length - (extOf f.name).length)) ++ ".jpeg"))

/-- The conversion loop of `main` (lines 161-165): the calls are not
wrapped in any per-file handler, so the first raising call aborts the
loop — and the whole program. -/
def convertAllHeic (heifSupport : Bool) : List HeicFile → Except String (List (Option String))
  | [] => Except.ok []
  | f :: fs =>
    match convert_heic_to_jpeg heifSupport f with
    | Except.error e => Except.error e
    | Except.ok r =>
      match convertAllHeic heifSupport fs with
      | Except.error e => Except.error e
      | Except.ok rs => Except.ok (r :: rs)

/-- `main` (lines 156-234) after the directory-existence check: run the
conversion loop (an uncaught exception aborts everything after it), then
the scan/extract/merge/sort/serialize pipeline on the post-conversion
directory contents. -/
def runMain (heics : List HeicFile) (heifSupport : Bool) (entries : List FileEntry)
    (cfgOpt : Option Config) : Except String (String × String) :=
  match convertAllHeic heifSupport heics with
  | Except.error e => Except.error e
  | Except.ok _ => Except.ok (runPipeline entries cfgOpt)

/-! ### Order lemmas for the embedded string comparison -/

theorem charListLe_refl (l : List Char) : charListLe l l = true := by
  induction l with
  | nil => rfl
  | cons a as ih => simp [charListLe, ih]

theorem charListLe_total (a b : List Char) :
    charListLe a b = true ∨ charListLe b a = true := by
  induction a generalizing b with
  | nil => exact Or.inl rfl
  | cons x xs ih =>
    cases b with
    | nil => exact Or.inr rfl
    | cons y ys =>
      rcases lt_trichotomy x y with h | h | h
      · left; simp [charListLe, h]
      · subst h
        rcases ih ys with h2 | h2
        · left; simp [charListLe, h2]
        · right; simp [charListLe, h2]
      · right; simp [charListLe, h]

theorem charListLe_trans {a b c : List Char} (hab : charListLe a b = true)
    (hbc : charListLe b c = true) : charListLe a c = true := by
  induction a generalizing b c with
  | nil => rfl
  | cons x xs ih =>
    cases b with
    | nil => simp [charListLe] at hab
    | cons y ys =>
      cases c with
      | nil => simp [charListLe] at hbc
      | cons z zs =>
        by_cases h1 : x < y
        · by_cases h2 : y < z
          · simp [charListLe, lt_trans h1 h2]
          · by_cases h3 : z < y
            · simp [charListLe, h2, h3] at hbc
            · obtain rfl : y = z := le_antisymm (not_lt.mp h3) (not_lt.mp h2)
              simp [charListLe, h1]
        · by_cases h1' : y < x
          · simp [charListLe, h1, h1'] at hab
          · obtain rfl : x = y := le_antisymm (not_lt.mp h1') (not_lt.mp h1)
            have htl : charListLe xs ys = true := by
              simpa [charListLe, h1] using hab
            by_cases h2 : x < z
            · simp [charListLe, h2]
            · by_cases h3 : z < x
              · simp [charListLe, h2, h3] at hbc
              · obtain rfl : x = z := le_antisymm (not_lt.mp h3) (not_lt.mp h2)
                have htl2 : charListLe ys zs = true := by
                  simpa [charListLe, h2] using hbc
                simpa [charListLe, h2] using ih htl htl2

theorem strLe_refl (s : String) : strLe s s := charListLe_refl s.data

theorem strLe_total (a b : String) : strLe a b ∨ strLe b a :=
  charListLe_total a.data b.data

theorem strLe_trans {a b c : String} (hab : strLe a b) (hbc : strLe b c) :
    strLe a c :=
  charListLe_trans hab hbc

instance : IsTotal Photo photoLe := ⟨fun a b => strLe_total a.date b.date⟩

instance : IsTrans Photo photoLe := ⟨fun _ _ _ => strLe_trans⟩

/-! ### Stability of the date sort -/

theorem filter_orderedInsert_date (x : Photo) (l : List Photo) (d : String) :
    (List.orderedInsert photoLe x l).filter (fun r => decide (r.date = d)) =
      (x :: l).filter (fun r => decide (r.date = d)) := by
  induction l with
  | nil => rfl
  | cons y ys ih =>
    by_cases h : photoLe x y
    · simp [List.orderedInsert, h]
    · have hne : x.date ≠ y.date := by
        intro he
        have : photoLe x y := by
          unfold photoLe strLe
          rw [he]
          exact charListLe_refl y.date.data
        exact h this
      simp only [List.orderedInsert, if_neg h]
      by_cases hy : y.date = d
      · by_cases hx : x.date = d
        · exact absurd (hx.trans hy.symm) hne
        · simp [List.filter_cons, hx, hy, ih]
      · by_cases hx : x.date = d
        · simp [List.filter_cons, hx, hy, ih]
        · simp [List.filter_cons, hx, hy, ih]

theorem filter_insertionSort_date (l : List Photo) (d : String) :
    (List.insertionSort photoLe l).filter (fun r => decide (r.date = d)) =
      l.filter (fun r => decide (r.date = d)) := by
  induction l with
  | nil => rfl
  | cons x xs ih =>
    rw [List.insertionSort, filter_orderedInsert_date]
    simp [List.filter_cons, ih]

/-! ### Closed form of the category loop -/

theorem catsFor_foldl (f : String) (cols : List (String × List String))
    (acc : List String) :
    cols.foldl (fun cats c => if f ∈ c.2 then cats ++ [c.1] else cats) acc =
      acc ++ (cols.filter (fun c => decide (f ∈ c.2))).map Prod.fst := by
  induction cols generalizing acc with
  | nil => simp
  | cons c cs ih =>
    by_cases h : f ∈ c.2
    · simp [List.foldl_cons, h, ih, List.filter_cons]
    · simp [List.foldl_cons, h, ih, List.filter_cons]

theorem catsFor_closed (favs : List String) (cols : List (String × List String))
    (f : String) :
    catsFor favs cols f =
      (if f ∈ favs then ["favorites"] else []) ++
        (cols.filter (fun c => decide (f ∈ c.2))).map Prod.fst := by
  unfold catsFor
  exact catsFor_foldl f cols _

/-! ### Auxiliary facts about `extractGeo` on the error path -/

theorem extractGeo_eq_none_of_raises (e : ExifData)
    (h : decodeRaises (ImgMeta.withExif e) = true) : extractGeo e = none := by
  unfold extractGeo
  cases hg : e.gpsInfo with
  | none => simp [hg]
  | some g =>
    cases hlat : g.gpsLatitude with
    | none => simp [hg, hlat]
    | some latRaw =>
      cases hlon : g.gpsLongitude with
      | none => simp [hg, hlat, hlon]
      | some lonRaw =>
        have hr : (to_degrees latRaw).isNone = true ∨ (to_degrees lonRaw).isNone = true := by
          simpa [decodeRaises, hg, hlat, hlon, Bool.or_eq_true] using h
        cases hdl : to_degrees latRaw with
        | none => simp [hg, hlat, hlon, hdl]
        | some q1 =>
          cases hdl2 : to_degrees lonRaw with
          | none => simp [hg, hlat, hlon, hdl, hdl2]
          | some q2 =>
            exfalso
            rcases hr with hr | hr <;> simp [hdl, hdl2] at hr

/-! ### Claim theorems -/

/-- C1, counterexample: with `DateTimeOriginal` present but unparseable and
`DateTimeDigitized` present and parseable, the extracted date is `none`
(the loop `break`s after the first PRESENT tag) — extraction does not
proceed to the next candidate field as the claim states. -/
theorem date_break_counterexample :
    extractDate ⟨some "not a date", some "2021:06:05 04:03:02", none, none⟩ = none ∧
    parseExifDate "2021:06:05 04:03:02" = some "2021-06-05T04:03:02" := by
  constructor <;> decide

/-- C1, amended: the date comes from the FIRST PRESENT of the three
timestamp fields; if that field is present its parse result is final
(parse failure yields no EXIF date, later fields are never consulted), and
only when the winning parse fails or no field is present does the caller's
modification-time fallback apply. -/
theorem date_first_present_field (e : ExifData) :
    (∀ s, e.dateTimeOriginal = some s → extractDate e = parseExifDate s) ∧
    (e.dateTimeOriginal = none → ∀ s, e.dateTimeDigitized = some s →
      extractDate e = parseExifDate s) ∧
    (e.dateTimeOriginal = none → e.dateTimeDigitized = none → ∀ s,
      e.dateTime = some s → extractDate e = parseExifDate s) ∧
    (e.dateTimeOriginal = none → e.dateTimeDigitized = none → e.dateTime = none →
      extractDate e = none) ∧
    (∀ (meta : ImgMeta) (mt : String), (extract_exif meta).date = none →
      fallbackDate (extract_exif meta).date mt = mt) := by
  refine ⟨?_, ?_, ?_, ?_, ?_⟩
  · intro s hs; simp [extractDate, hs]
  · intro h0 s hs; simp [extractDate, h0, hs]
  · intro h0 h1 s hs; simp [extractDate, h0, h1, hs]
  · intro h0 h1 h2; simp [extractDate, h0, h1, h2]
  · intro meta mt h; simp [fallbackDate, h]

/-- C1 witness: the amended theorem applied at a concrete input. -/
theorem date_first_present_field_witness :
    extractDate ⟨some "2020:01:02 03:04:05", none, none, none⟩ =
      parseExifDate "2020:01:02 03:04:05" :=
  (date_first_present_field ⟨some "2020:01:02 03:04:05", none, none, none⟩).1
    "2020:01:02 03:04:05" rfl

/-- C2, counterexample: configuration knows `a.jpg`, disk now holds only
`b.jpg`; the new file triggers a rewrite and `_all_photos` becomes the
sorted CURRENT list `["b.jpg"]` — the previously-known `a.jpg` is lost,
refuting both the sorted-union claim and monotone growth. -/
theorem all_photos_shrink_counterexample :
    (load_config (some ⟨"", [], [], ["a.jpg"]⟩) ["b.jpg"]).1.all_photos = ["b.jpg"] ∧
    "a.jpg" ∉ (load_config (some ⟨"", [], [], ["a.jpg"]⟩) ["b.jpg"]).1.all_photos := by
  constructor <;> decide

/-- C2, amended: whenever at least one current filename is unknown,
`_all_photos` is replaced by the sorted deduplicated CURRENT filename list
(previously-known filenames no longer on disk are dropped at that point)
and the file is rewritten; with no new filename nothing changes and no
write occurs. -/
theorem all_photos_replaced (config : Config) (files : List String) :
    ((∃ f ∈ files, f ∉ config.all_photos) →
      load_config (some config) files =
        ({ config with all_photos := sortStrings files.dedup }, true)) ∧
    ((∀ f ∈ files, f ∈ config.all_photos) →
      load_config (some config) files = (config, false)) := by
  constructor
  · rintro ⟨f, hf, hnf⟩
    have hne : files.filter (fun f => decide (f ∉ config.all_photos)) ≠ [] := by
      intro hemp
      have hmem : f ∈ files.filter (fun f => decide (f ∉ config.all_photos)) :=
        List.mem_filter.mpr ⟨hf, by simpa using hnf⟩
      rw [hemp] at hmem
      cases hmem
    simp only [load_config, if_pos hne]
  · intro h
    have hemp : files.filter (fun f => decide (f ∉ config.all_photos)) = [] := by
      rw [List.filter_eq_nil_iff]
      intro a ha
      simpa using h a ha
    have hcond : ¬ (files.filter (fun f => decide (f ∉ config.all_photos)) ≠ []) :=
      fun hne => hne hemp
    simp only [load_config]
    rw [if_neg hcond]

/-- C2 witness: the amended theorem applied at concrete inputs, once with
a new file (rewrite with the sorted current list) and once without (no
write). -/
theorem all_photos_replaced_witness :
    load_config (some ⟨"", [], [], ["a.jpg"]⟩) ["a.jpg", "b.jpg"] =
      ({ instructions := "", favorites := [], collections := [],
         all_photos := sortStrings ["a.jpg", "b.jpg"].dedup }, true) ∧
    load_config (some ⟨"", [], [], ["a.jpg"]⟩) ["a.jpg"] =
      (⟨"", [], [], ["a.jpg"]⟩, false) :=
  ⟨(all_photos_replaced ⟨"", [], [], ["a.jpg"]⟩ ["a.jpg", "b.jpg"]).1
      ⟨"b.jpg", by decide, by decide⟩,
   (all_photos_replaced ⟨"", [], [], ["a.jpg"]⟩ ["a.jpg"]).2 (by decide)⟩

/-- C3, counterexample: a batch with a corrupt `.heic` followed by a
healthy one aborts the whole run at the corrupt file (the loop has no
per-file handler), even though the second file on its own converts fine. -/
theorem heic_abort_counterexample :
    runMain [⟨"a.heic", true⟩, ⟨"b.heic", false⟩] true [] none =
      Except.error ("cannot identify image file " ++ "a.heic") ∧
    convert_heic_to_jpeg true ⟨"b.heic", false⟩ = Except.ok (some "b.jpeg") :=
  ⟨rfl, rfl⟩

/-- C3, amended: with HEIC support available, one unreadable/corrupt
legacy file aborts the ENTIRE run (no manifest is produced); when every
legacy file is readable the run completes. Only the missing-support
condition is handled per file (skip with a warning). -/
theorem heic_error_aborts (heics : List HeicFile) (entries : List FileEntry)
    (cfgOpt : Option Config) :
    ((∃ f ∈ heics, f.corrupt = true) →
      ∃ msg, runMain heics true entries cfgOpt = Except.error msg) ∧
    ((∀ f ∈ heics, f.corrupt = false) →
      runMain heics true entries cfgOpt = Except.ok (runPipeline entries cfgOpt)) := by
  constructor
  · intro hex
    have herr : ∃ msg, convertAllHeic true heics = Except.error msg := by
      induction heics with
      | nil => obtain ⟨f, hf, _⟩ := hex; cases hf
      | cons g gs ih =>
        by_cases hg : g.corrupt
        · exact ⟨"cannot identify image file " ++ g.name,
            by simp [convertAllHeic, convert_heic_to_jpeg, hg]⟩
        · obtain ⟨f, hf, hc⟩ := hex
          cases hf with
          | head => exact absurd hc (by simpa using hg)
          | tail _ hmem =>
            obtain ⟨msg, hm⟩ := ih ⟨f, hmem, hc⟩
            exact ⟨msg, by simp [convertAllHeic, convert_heic_to_jpeg, hg, hm]⟩
    obtain ⟨msg, hm⟩ := herr
    exact ⟨msg, by simp [runMain, hm]⟩
  · intro hall
    have hok : ∃ rs, convertAllHeic true heics = Except.ok rs := by
      induction heics with
      | nil => exact ⟨[], rfl⟩
      | cons g gs ih =>
        obtain ⟨rs, hrs⟩ := ih fun f hf => hall f (List.mem_cons_of_mem g hf)
        have hg : g.corrupt = false := hall g (List.mem_cons_self g gs)
        refine ⟨some (g.name.take (g.name.length - (extOf g.name).length) ++ ".jpeg") :: rs, ?_⟩
        simp [convertAllHeic, convert_heic_to_jpeg, hg, hrs]
    obtain ⟨rs, hrs⟩ := hok
    simp [runMain, hrs]

/-- C3 witness: the amended theorem applied at concrete batches. -/
theorem heic_error_aborts_witness :
    (∃ msg, runMain [⟨"a.heic", true⟩] true [] none = Except.error msg) ∧
    runMain [⟨"b.heic", false⟩] true [] none = Except.ok (runPipeline [] none) :=
  ⟨(heic_error_aborts [⟨"a.heic", true⟩] [] none).1 ⟨⟨"a.heic", true⟩, by decide, rfl⟩,
   (heic_error_aborts [⟨"b.heic", false⟩] [] none).2 (by decide)⟩

/-- C4, counterexample: a file whose GPS latitude tuple is malformed (two
elements — `to_degrees` raises, the handler runs) but whose
`DateTimeOriginal` parsed before the error: `extract_exif` returns the
NON-null date with `geo = null`, not the `date = null, geo = null` pair
the claim states. -/
theorem exif_partial_counterexample :
    decodeRaises (ImgMeta.withExif ⟨some "2020:01:02 03:04:05", none, none,
        some ⟨some [40, 26], some [79, 58, 56], none, none⟩⟩) = true ∧
    (extract_exif (ImgMeta.withExif ⟨some "2020:01:02 03:04:05", none, none,
        some ⟨some [40, 26], some [79, 58, 56], none, none⟩⟩)).date =
      some "2020-01-02T03:04:05" := by
  constructor <;> decide

/-- C4, amended: `extract_exif` is total — no decode error propagates and
the batch never aborts. On an error it returns the partially-built result:
`geo` is always `null`, the `date` keeps whatever the (non-raising) date
loop extracted before the error, and an error before any tag is read
(open/metadata-read failure) yields `date = null, geo = null`. -/
theorem exif_error_partial_result (e : ExifData) (meta : ImgMeta) :
    extract_exif ImgMeta.openError = ⟨none, none⟩ ∧
    (decodeRaises meta = true → (extract_exif meta).geo = none) ∧
    (extract_exif (ImgMeta.withExif e)).date = extractDate e := by
  refine ⟨rfl, ?_, rfl⟩
  intro h
  cases meta with
  | openError => rfl
  | noExif => cases h
  | withExif e2 => exact extractGeo_eq_none_of_raises e2 h

/-- C4 witness: the amended theorem applied at a concrete erroring input. -/
theorem exif_error_partial_result_witness :
    (extract_exif (ImgMeta.withExif ⟨none, none, none,
        some ⟨some [40, 26], some [79, 58, 56], none, none⟩⟩)).geo = none :=
  (exif_error_partial_result ⟨none, none, none, none⟩
      (ImgMeta.withExif ⟨none, none, none,
        some ⟨some [40, 26], some [79, 58, 56], none, none⟩⟩)).2.1 (by decide)

/-- C5: with both GPS coordinates present as degrees/minutes/seconds
triples, the decoded coordinate is `d + m/60 + s/3600` per axis, negated
exactly when the latitude reference (default `N`) is `S` resp. the
longitude reference (default `E`) is `W`, rounded to six decimals; at
lat = 40°26′46″ N, lon = 79°58′56″ W this is
`(40.446111, -79.982222)`. -/
theorem gps_dms_conversion :
    (∀ (dto dtd dt latR lonR : Option String) (d m s d2 m2 s2 : ℚ),
      extractGeo ⟨dto, dtd, dt, some ⟨some [d, m, s], some [d2, m2, s2], latR, lonR⟩⟩ =
        some ⟨round6 (if latR.getD "N" = "S" then -(d + m / 60 + s / 3600)
                      else d + m / 60 + s / 3600),
              round6 (if lonR.getD "E" = "W" then -(d2 + m2 / 60 + s2 / 3600)
                      else d2 + m2 / 60 + s2 / 3600)⟩) ∧
    (extract_exif (ImgMeta.withExif ⟨none, none, none,
        some ⟨some [40, 26, 46], some [79, 58, 56], some "N", some "W"⟩⟩)).geo =
      some ⟨(40446111 : ℚ) / 1000000, -((79982222 : ℚ) / 1000000)⟩ := by
  constructor
  · intro dto dtd dt latR lonR d m s d2 m2 s2
    rfl
  · have hN : ¬ ((some "N" : Option String).getD "N" = "S") := by decide
    have hW : ((some "W" : Option String).getD "E" = "W") := by decide
    simp only [extract_exif, extractGeo, to_degrees, if_neg hN, if_pos hW, round6]
    norm_num [Geo.mk.injEq, round_eq]

/-- C6: the emitted manifest is the date-sorted (ascending, string
comparison) permutation of the filename-sorted record list, the sort is
stable (records with equal dates keep their pre-sort relative order, here
stated as filter-invariance per date value), and every record carries a
date (the EXIF date when present, otherwise the modification time — the
field is total by construction of `buildRecord`). -/
theorem manifest_sorted_stable (cfg : Config) (entries : List FileEntry) :
    List.Sorted photoLe (buildManifest cfg entries) ∧
    (∀ d : String,
      (buildManifest cfg entries).filter (fun r => decide (r.date = d)) =
        ((scanFiles entries).map (buildRecord cfg)).filter
          (fun r => decide (r.date = d))) ∧
    List.Perm (buildManifest cfg entries)
      ((scanFiles entries).map (buildRecord cfg)) ∧
    (∀ e : FileEntry,
      (buildRecord cfg e).date = ((extract_exif e.meta).date).getD e.mtimeIso) := by
  refine ⟨?_, ?_, ?_, ?_⟩
  · exact List.sorted_insertionSort photoLe _
  · intro d
    exact filter_insertionSort_date _ d
  · exact List.perm_insertionSort photoLe _
  · intro e
    cases h : (extract_exif e.meta).date with
    | none => simp [buildRecord, fallbackDate, h]
    | some d0 => simp [buildRecord, fallbackDate, h]

/-- C7: the `categories` field is emitted only when the category list is
non-empty; that list is "favorites" first (when the filename is in the
favorites set) followed by the names of the collections containing the
filename, in mapping iteration order — with the spec's worked example
evaluated: `a.jpg → ["favorites","flowers"]`, `b.jpg → ["flowers"]`,
`c.jpg → no categories field`. -/
theorem categories_assembly :
    (∀ (favs : List String) (cols : List (String × List String)) (f : String),
      catsFor favs cols f =
        (if f ∈ favs then ["favorites"] else []) ++
          (cols.filter (fun c => decide (f ∈ c.2))).map Prod.fst) ∧
    (∀ (cfg : Config) (e : FileEntry),
      (buildRecord cfg e).categories =
        if catsFor cfg.favorites cfg.collections e.name = [] then none
        else some (catsFor cfg.favorites cfg.collections e.name)) ∧
    catsFor ["a.jpg"] [("flowers", ["a.jpg", "b.jpg"])] "a.jpg" =
      ["favorites", "flowers"] ∧
    catsFor ["a.jpg"] [("flowers", ["a.jpg", "b.jpg"])] "b.jpg" = ["flowers"] ∧
    (buildRecord ⟨"", ["a.jpg"], [("flowers", ["a.jpg", "b.jpg"])], []⟩
        ⟨"c.jpg", ImgMeta.noExif, "2024-01-01T00:00:00"⟩).categories = none := by
  refine ⟨catsFor_closed, ?_, by decide, by decide, by decide⟩
  intro cfg e
  rfl

/-- C8: for an existing configuration, `load_config` preserves
`_instructions`, `favorites` and `collections` exactly (only `_all_photos`
can change), and performs no write at all when every current filename is
already known. -/
theorem config_readonly (config : Config) (files : List String) :
    ((load_config (some config) files).1.instructions = config.instructions) ∧
    ((load_config (some config) files).1.favorites = config.favorites) ∧
    ((load_config (some config) files).1.collections = config.collections) ∧
    ((∀ f ∈ files, f ∈ config.all_photos) →
      load_config (some config) files = (config, false)) := by
  refine ⟨?_, ?_, ?_, ?_⟩
  · simp only [load_config]
    split <;> rfl
  · simp only [load_config]
    split <;> rfl
  · simp only [load_config]
    split <;> rfl
  · intro h
    have hemp : files.filter (fun f => decide (f ∉ config.all_photos)) = [] := by
      rw [List.filter_eq_nil_iff]
      intro a ha
      simpa using h a ha
    have hcond : ¬ (files.filter (fun f => decide (f ∉ config.all_photos)) ≠ []) :=
      fun hne => hne hemp
    simp only [load_config]
    rw [if_neg hcond]

/-- C8 witness: the theorem applied at a concrete configuration with no
new files. -/
theorem config_readonly_witness :
    load_config (some ⟨"i", ["f.jpg"], [("flowers", ["f.jpg"])], ["f.jpg"]⟩)
        ["f.jpg"] =
      (⟨"i", ["f.jpg"], [("flowers", ["f.jpg"])], ["f.jpg"]⟩, false) :=
  (config_readonly ⟨"i", ["f.jpg"], [("flowers", ["f.jpg"])], ["f.jpg"]⟩
      ["f.jpg"]).2.2.2 (by decide)

/-- C9: the pipeline is a pure function of the directory state and the
configuration: two runs over equal states and equal configurations produce
equal bytes for BOTH artifacts (the JSON data file and the JS wrapper). -/
theorem outputs_deterministic (entries1 entries2 : List FileEntry)
    (cfg1 cfg2 : Option Config) (he : entries1 = entries2) (hc : cfg1 = cfg2) :
    (runPipeline entries1 cfg1).1 = (runPipeline entries2 cfg2).1 ∧
    (runPipeline entries1 cfg1).2 = (runPipeline entries2 cfg2).2 := by
  subst he
  subst hc
  exact ⟨rfl, rfl⟩

/-- C9 witness: the theorem applied at a concrete state. -/
theorem outputs_deterministic_witness :
    (runPipeline [] none).1 = (runPipeline [] none).1 ∧
    (runPipeline [] none).2 = (runPipeline [] none).2 :=
  outputs_deterministic [] [] none none rfl rfl

/-- C10, counterexample: duplicates in `favorites` indeed contribute
"favorites" once only — but a collection literally named "favorites"
appends it a second time, so the claim's "at most once in the categories
list", quantified over EVERY configuration, fails. -/
theorem favorites_twice_counterexample :
    catsFor ["a.jpg", "a.jpg"] [("favorites", ["a.jpg"])] "a.jpg" =
      ["favorites", "favorites"] ∧
    ¬ (List.count "favorites"
        (catsFor ["a.jpg", "a.jpg"] [("favorites", ["a.jpg"])] "a.jpg") ≤ 1) := by
  constructor <;> decide

/-- C10, amended: the favorites test contributes "favorites" at most once
regardless of duplicates in the `favorites` list (membership in a set is
tested); provided no collection is itself named "favorites", the whole
categories list contains "favorites" at most once. -/
theorem favorites_at_most_once (favs : List String)
    (cols : List (String × List String)) (f : String)
    (h : ∀ c ∈ cols, c.1 ≠ "favorites") :
    List.count "favorites" (catsFor favs cols f) ≤ 1 := by
  rw [catsFor_closed, List.count_append]
  have h1 : List.count "favorites" (if f ∈ favs then ["favorites"] else []) ≤ 1 := by
    split <;> simp
  have h2 : List.count "favorites"
      ((cols.filter (fun c => decide (f ∈ c.2))).map Prod.fst) = 0 := by
    rw [List.count_eq_zero]
    intro hmem
    obtain ⟨c, hc, hfst⟩ := List.mem_map.mp hmem
    exact h c (List.mem_of_mem_filter hc) hfst
  omega

/-- C10 witness: the amended theorem applied at a configuration with a
duplicated favorites entry. -/
theorem favorites_at_most_once_witness :
    List.count "favorites"
      (catsFor ["a.jpg", "a.jpg"] [("flowers", ["a.jpg"])] "a.jpg") ≤ 1 :=
  favorites_at_most_once ["a.jpg", "a.jpg"] [("flowers", ["a.jpg"])] "a.jpg"
    (by decide)

end GeneratePhotos
